import Mathlib

/-!
Verification of the incremental mailbox synchronization and message-content
extraction pipeline (`src/lib_mail/mailbox.py`).

The Python source is shallowly embedded: pure computations become Lean
functions on `List Char` / `List Nat` (bytes); external effects (the IMAP
server, chardet, the Redis store) become explicit function parameters or
`Option`-valued inputs; a Python function that can fall into its `except`
branch returns `Option` (`none` = the exception path / Python `None`).
-/

namespace LibMail

/-- A PDF payload: raw bytes. -/
abbrev Pdf := List Nat

/-! ### Python string helpers -/

/-- Python `str.split(sep)` for a single-character separator, on char lists:
`"".split` gives `[""]`, separators at the ends give empty fragments. -/
def splitOnChar (sep : Char) : List Char → List (List Char)
  | [] => [[]]
  | c :: cs =>
    if c = sep then [] :: splitOnChar sep cs
    else
      match splitOnChar sep cs with
      | [] => [[c]]
      | h :: t => (c :: h) :: t

/-- Python `\w` (ASCII scope) plus the `.` and `-` the source pattern adds:
the character class `[\w\.-]` of `extract_business_`. -/
def isAddrChar (c : Char) : Bool :=
  c.isAlphanum || c = '_' || c = '.' || c = '-'

/-- Greedy match of the pattern `[\w\.-]+@[\w\.-]+` anchored at the start of
the input; returns the matched characters. -/
def matchEmailAt (s : List Char) : Option (List Char) :=
  let r1 := s.takeWhile isAddrChar
  let rest := s.dropWhile isAddrChar
  if r1.isEmpty then none
  else
    match rest with
    | '@' :: rest2 =>
      let r2 := rest2.takeWhile isAddrChar
      if r2.isEmpty then none else some (r1 ++ '@' :: r2)
    | _ => none

/-- Python `re.search(r'[\w\.-]+@[\w\.-]+', s)`: try each start position left
to right, return the first (leftmost) match. -/
def searchEmail : List Char → Option (List Char)
  | [] => none
  | c :: cs =>
    match matchEmailAt (c :: cs) with
    | some m => some m
    | none => searchEmail cs

/-- `Mailbox.extract_business_`: take the first email-shaped substring (the
whole input when the regex finds none), split on `@`; with exactly two parts
split the domain on `.`; with more than one domain label return the first,
otherwise `none`. -/
def extract_business_ (email_adress : List Char) : Option (List Char) :=
  let extracted := (searchEmail email_adress).getD email_adress
  let email_parts := splitOnChar '@' extracted
  if email_parts.length = 2 then
    let domain_parts := splitOnChar '.' (email_parts.getD 1 [])
    if domain_parts.length > 1 then some (domain_parts.getD 0 []) else none
  else none

/-! ### Attachment extraction (`extract_all_pdfs`) -/

/-- A MIME part as the extraction code sees it: `get_filename()` result and
the decoded payload `get_payload(decode=True)` would return. -/
structure Part where
  filename : Option (List Char)
  payload : Pdf

/-- Python `str(part.get_filename())`: `None` prints as the four characters
`None`. -/
def pyStrOfFilename (p : Part) : List Char :=
  match p.filename with
  | none => 'N' :: 'o' :: 'n' :: 'e' :: []
  | some s => s

/-- Python `str.lower()` (ASCII letters; the source only compares against the
ASCII literal `".pdf"`). -/
def lowerChars (s : List Char) : List Char := s.map Char.toLower

/-- Does the second list start with the first? -/
def leadsWith : List Char → List Char → Bool
  | [], _ => true
  | _ :: _, [] => false
  | a :: as, b :: bs => a = b && leadsWith as bs

/-- Python substring containment `needle in hay`. -/
def containsSub (needle : List Char) : List Char → Bool
  | [] => leadsWith needle []
  | c :: cs => leadsWith needle (c :: cs) || containsSub needle cs

/-- The filter predicate of `extract_all_pdfs`:
`".pdf" in str(part.get_filename()).lower()`. -/
def isPdfPart (p : Part) : Bool :=
  containsSub (String.data ".pdf") (lowerChars (pyStrOfFilename p))

/-- `Mailbox.extract_all_pdfs`, success path of its `try` block: keep the
parts whose stringified lowercased filename contains `".pdf"` and return
their payloads in part order.  (The surrounding `except` branch returns
Python `None`; that sentinel is threaded through the pipeline model as the
`pdfs = none` case of `UidData`.) -/
def extract_all_pdfs (parts : List Part) : List Pdf :=
  (parts.filter isPdfPart).map Part.payload

/-! ### Routing (`should_process`) -/

/-- `Mailbox.should_process`, truthiness of
`invoice.business in criteria and re.search(criteria[invoice.business],
invoice.subject)`.  The regex engine is external: `re_search pat subj` is
the truthiness of `re.search(pat, subj)`.  `criteria` is the JSON mapping
as an association list; a `none` business is never a key of it. -/
def should_process (re_search : List Char → List Char → Bool)
    (criteria : List (List Char × List Char)) (business : Option (List Char))
    (subject : List Char) : Bool :=
  match business with
  | none => false
  | some b =>
    match criteria.lookup b with
    | none => false
    | some pat => re_search pat subject

/-! ### Watermark tracking (`initialize_uid`, `list_uids`) -/

/-- `Mailbox.initialize_uid`.  `searchAll` is the UID list the server search
for ALL returned (`none` = the command raised; `some []` = empty mailbox
response); `uid` is the current watermark (`self.uid`, initially `none`).
On a nonempty response the watermark becomes `max - 1 - uid_value`;
otherwise (empty response or exception) it is left unchanged. -/
def initialize_uid (searchAll : Option (List Nat)) (uid_value : Int)
    (uid : Option Int) : Option Int :=
  match searchAll with
  | none => uid
  | some [] => uid
  | some (u :: us) => some (((us.foldl Nat.max u : Nat) : Int) - 1 - uid_value)

/-- `Mailbox.list_uids`.  `serverSearch n` is the UID list the server returns
for the criteria `UID n:*` (`none` = the command raised).  An unset
watermark makes `int(self.uid)` raise, and any raise falls into the
`except` branch, which logs and returns Python `None` (`none` here: the
function body has no `return` on that path).  Otherwise the response is
filtered client-side to UIDs strictly greater than the watermark, in
server order. -/
def list_uids (serverSearch : Int → Option (List Nat)) (uid : Option Int) :
    Option (List Nat) :=
  match uid with
  | none => none
  | some w =>
    match serverSearch (w + 1) with
    | none => none
    | some resp => some (resp.filter (fun u => decide (w < (u : Int))))

/-! ### Metadata cache writer (`set_metadata_redis`) -/

/-- `Mailbox.set_metadata_redis`.  `fetchMeta uid` is the outcome of the
per-uid body (fetch, charset detection, header decode, `hset`): `some
(business, subject)` when it wrote that record, `none` when any step
raised.  The source wraps the WHOLE `for` loop in one `try`, so a raise
escapes the loop into the handler and the remaining uids are skipped.
The result is the ordered list of records actually written. -/
def set_metadata_redis
    (fetchMeta : List Char → Option (Option (List Char) × List Char)) :
    List (List Char) → List (List Char × (Option (List Char) × List Char))
  | [] => []
  | uid :: rest =>
    match fetchMeta uid with
    | none => []
    | some entry => (uid, entry) :: set_metadata_redis fetchMeta rest

/-! ### Byte decoding (`bytes.decode` for the charsets the code meets) -/

/-- Strict UTF-8 decoding of a byte list (as Python `bytes.decode('utf-8')`):
multi-byte sequences need their continuation bytes, overlong encodings and
surrogates are rejected; `none` models `UnicodeDecodeError`. -/
def utf8Decode : List Nat → Option (List Char)
  | [] => some []
  | b1 :: rest =>
    if b1 < 0x80 then
      (utf8Decode rest).map (fun cs => Char.ofNat b1 :: cs)
    else if b1 < 0xC2 then none
    else if b1 < 0xE0 then
      match rest with
      | b2 :: rest2 =>
        if 0x80 ≤ b2 ∧ b2 < 0xC0 then
          (utf8Decode rest2).map
            (fun cs => Char.ofNat ((b1 - 0xC0) * 0x40 + (b2 - 0x80)) :: cs)
        else none
      | [] => none
    else if b1 < 0xF0 then
      match rest with
      | b2 :: b3 :: rest3 =>
        if (0x80 ≤ b2 ∧ b2 < 0xC0) ∧ (0x80 ≤ b3 ∧ b3 < 0xC0) ∧
            (b1 = 0xE0 → 0xA0 ≤ b2) ∧ (b1 = 0xED → b2 < 0xA0) then
          (utf8Decode rest3).map (fun cs =>
            Char.ofNat ((b1 - 0xE0) * 0x1000 + (b2 - 0x80) * 0x40 + (b3 - 0x80)) :: cs)
        else none
      | _ => none
    else if b1 < 0xF5 then
      match rest with
      | b2 :: b3 :: b4 :: rest4 =>
        if (0x80 ≤ b2 ∧ b2 < 0xC0) ∧ (0x80 ≤ b3 ∧ b3 < 0xC0) ∧
            (0x80 ≤ b4 ∧ b4 < 0xC0) ∧
            (b1 = 0xF0 → 0x90 ≤ b2) ∧ (b1 = 0xF4 → b2 < 0x90) then
          (utf8Decode rest4).map (fun cs =>
            Char.ofNat ((b1 - 0xF0) * 0x40000 + (b2 - 0x80) * 0x1000 +
              (b3 - 0x80) * 0x40 + (b4 - 0x80)) :: cs)
        else none
      | _ => none
    else none

/-- Python `bytes.decode(charset)` for the codecs the claims exercise:
`iso-8859-1` maps every byte to its codepoint, `ascii` rejects bytes ≥ 0x80,
`utf-8` is strict UTF-8.  Any other codec name is modelled as a failed
lookup (a raise), which the source treats like any other decode failure. -/
def decodeWith (charset : List Char) (bs : List Nat) : Option (List Char) :=
  if charset = String.data "iso-8859-1" then some (bs.map Char.ofNat)
  else if charset = String.data "ascii" then
    if bs.all (fun b => b < 0x80) then some (bs.map Char.ofNat) else none
  else if charset = String.data "utf-8" then utf8Decode bs
  else none

/-- One element of `email.header.decode_header`: either a byte fragment with
its declared charset (`None` possible), or an already-decoded string. -/
abbrev Fragment := (List Nat × Option (List Char)) ⊕ List Char

/-- The subject-decoding comprehension in `configure_uid_specific_data`
(and `set_metadata_redis`):
`fragment.decode(charset or 'utf-8') if isinstance(fragment, bytes) else
fragment`, joined in order.  The comprehension variable `charset` SHADOWS
the outer detected charset, so the fallback for an undeclared fragment
charset is directly UTF-8.  `none` models a decode exception escaping the
comprehension. -/
def subjectFromFragments : List Fragment → Option (List Char)
  | [] => some []
  | Sum.inl (bs, cs) :: rest =>
    match decodeWith (cs.getD (String.data "utf-8")) bs with
    | none => none
    | some s => (subjectFromFragments rest).map (fun t => s ++ t)
  | Sum.inr s :: rest => (subjectFromFragments rest).map (fun t => s ++ t)

/-- Whether a fragment is either an already-decoded string or a byte
fragment that declares its charset (so no charset fallback is needed). -/
def declaresCharset : Fragment → Bool
  | Sum.inl (_, none) => false
  | _ => true

/-- The subject decoding as the spec states it (for comparison with
`subjectFromFragments`): each byte fragment decoded with its own declared
charset, falling back to the OUTER detected message charset when the
fragment declares none, then to UTF-8. -/
def subjectFromFragmentsSpec (outerCharset : Option (List Char)) :
    List Fragment → Option (List Char)
  | [] => some []
  | Sum.inl (bs, cs) :: rest =>
    match decodeWith (cs.getD (outerCharset.getD (String.data "utf-8"))) bs with
    | none => none
    | some s => (subjectFromFragmentsSpec outerCharset rest).map (fun t => s ++ t)
  | Sum.inr s :: rest =>
    (subjectFromFragmentsSpec outerCharset rest).map (fun t => s ++ t)

/-! ### Per-message decode and the sync pipeline
(`configure_uid_specific_data`, `create_invoice_and_idoc`) -/

/-- What `configure_uid_specific_data` has in hand once
`message_from_string` has succeeded: the decoded raw text, the `From`
header, the subject fragments from `decode_header`, the walked parts,
the `extract_text_` outcome (`none` = its internal `try` failed) and
whether payload extraction inside `extract_all_pdfs` raised. -/
structure Parsed where
  raw : List Char
  adress : List Char
  fragments : List Fragment
  parts : List Part
  text : Option (List Char)
  pdfExtractOk : Bool

/-- The tuple `configure_uid_specific_data` returns:
`message, adress, business, subject, text, pdfs`.  `pdfs = none` is the
Python `None` sentinel `extract_all_pdfs` returns from its `except`
branch; the decode-failure tuple carries `pdfs = some []` (the literal
`[]` in `return None, None, None, None, None, []`). -/
structure UidData where
  message : Option (List Char)
  adress : Option (List Char)
  business : Option (List Char)
  subject : Option (List Char)
  text : Option (List Char)
  pdfs : Option (List Pdf)

/-- `Mailbox.configure_uid_specific_data`.  `fetchParse uid` is the outcome
of fetch + chardet + decode + `message_from_string` (`none` = raised).  A
subject-fragment decode error also raises inside the `try`, landing in the
same `except` branch; either failure yields the all-`None` tuple with an
EMPTY pdf list.  On success, business comes from `extract_business_`, pdfs
from `extract_all_pdfs` (or its `None` sentinel when extraction raised). -/
def configure_uid_specific_data (fetchParse : List Char → Option Parsed)
    (uid : List Char) : UidData :=
  match fetchParse uid with
  | none => ⟨none, none, none, none, none, some []⟩
  | some m =>
    match subjectFromFragments m.fragments with
    | none => ⟨none, none, none, none, none, some []⟩
    | some subj =>
      ⟨some m.raw, some m.adress, extract_business_ m.adress, some subj, m.text,
        if m.pdfExtractOk then some (extract_all_pdfs m.parts) else none⟩

/-- One yielded extraction record.  Field order matches the constructor call
`invoice_cls(uid, adress, message, business, subject, text, pdf)`; the
accompanying `idoc_cls(startseg, dynseg, endseg)` instance is an opaque
constant per record and carries no information, so it is elided. -/
structure Invoice where
  uid : List Char
  adress : Option (List Char)
  message : Option (List Char)
  business : Option (List Char)
  subject : Option (List Char)
  text : Option (List Char)
  pdf : Option Pdf

/-- `Mailbox.create_invoice_and_idoc`: for each uid, decode; if `pdfs` is
falsy (Python `None` or the empty list) yield one record with a null
attachment, else one record per pdf in order. -/
def create_invoice_and_idoc (fetchParse : List Char → Option Parsed)
    (uids : List (List Char)) : List Invoice :=
  uids.flatMap (fun uid =>
    let d := configure_uid_specific_data fetchParse uid
    match d.pdfs with
    | none => [⟨uid, d.adress, d.message, d.business, d.subject, d.text, none⟩]
    | some [] => [⟨uid, d.adress, d.message, d.business, d.subject, d.text, none⟩]
    | some (p :: ps) => (p :: ps).map (fun pdf =>
        ⟨uid, d.adress, d.message, d.business, d.subject, d.text, some pdf⟩))

/-! ### Helper lemmas -/

theorem splitOnChar_eq_single (sep : Char) (l : List Char) (h : sep ∉ l) :
    splitOnChar sep l = [l] := by
  induction l with
  | nil => rfl
  | cons c cs ih =>
    have hc : ¬ c = sep := fun hcs => h (hcs ▸ List.mem_cons_self c cs)
    have ihs := ih (fun hm => h (List.mem_cons_of_mem c hm))
    simp [splitOnChar, hc, ihs]

theorem matchEmailAt_no_at (s : List Char) (h : '@' ∉ s) :
    matchEmailAt s = none := by
  have hs : '@' ∉ s.dropWhile isAddrChar :=
    fun hm => h ((List.dropWhile_sublist isAddrChar).subset hm)
  unfold matchEmailAt
  dsimp only
  split
  · rfl
  · split
    · next heq =>
      exact absurd (heq ▸ List.mem_cons_self '@' _) hs
    · rfl

theorem searchEmail_no_at (s : List Char) (h : '@' ∉ s) :
    searchEmail s = none := by
  induction s with
  | nil => rfl
  | cons c cs ih =>
    have h1 : matchEmailAt (c :: cs) = none := matchEmailAt_no_at _ h
    have h2 : searchEmail cs = none := ih (fun hm => h (List.mem_cons_of_mem c hm))
    simp [searchEmail, h1, h2]

theorem foldl_max_bounds (us : List Nat) (u : Nat) :
    u ≤ us.foldl Nat.max u ∧ ∀ x ∈ us, x ≤ us.foldl Nat.max u := by
  induction us generalizing u with
  | nil => exact ⟨le_refl u, by simp⟩
  | cons v vs ih =>
    obtain ⟨h1, h2⟩ := ih (Nat.max u v)
    simp only [List.foldl_cons]
    refine ⟨le_trans (Nat.le_max_left u v) h1, ?_⟩
    intro x hx
    rcases List.mem_cons.mp hx with hxv | hxs
    · rw [hxv]; exact le_trans (Nat.le_max_right u v) h1
    · exact h2 x hxs

theorem nat_max_choice (u v : Nat) : Nat.max u v = u ∨ Nat.max u v = v := by
  rcases Nat.le_total u v with h | h
  · exact Or.inr (Nat.max_eq_right h)
  · exact Or.inl (Nat.max_eq_left h)

theorem foldl_max_mem (us : List Nat) (u : Nat) :
    us.foldl Nat.max u ∈ u :: us := by
  induction us generalizing u with
  | nil => exact List.mem_singleton.mpr rfl
  | cons v vs ih =>
    have hm := ih (Nat.max u v)
    simp only [List.foldl_cons]
    rcases nat_max_choice u v with hc | hc <;>
      rcases List.mem_cons.mp hm with hh | ht
    · rw [hh, hc]; exact List.mem_cons_self _ _
    · exact List.mem_cons_of_mem _ (List.mem_cons_of_mem _ ht)
    · rw [hh, hc]
      exact List.mem_cons_of_mem _ (List.mem_cons_self _ _)
    · exact List.mem_cons_of_mem _ (List.mem_cons_of_mem _ ht)

/-! ### Claim theorems -/

/-- Claim C3: when the mailbox search returns at least one message with
maximum identifier `m`, `initialize_uid off` sets the watermark to
`m - 1 - off`; with zero messages the watermark remains unset. -/
theorem initialize_uid_spec :
    (∀ (l : List Nat) (off : Int) (cur : Option Int) (m : Nat),
      m ∈ l → (∀ x ∈ l, x ≤ m) →
      initialize_uid (some l) off cur = some ((m : Int) - 1 - off)) ∧
    (∀ off : Int, initialize_uid (some []) off none = none) := by
  constructor
  · intro l off cur m hmem hub
    match l with
    | [] => exact absurd hmem (List.not_mem_nil m)
    | u :: us =>
      have hmax : us.foldl Nat.max u = m := by
        obtain ⟨h1, h2⟩ := foldl_max_bounds us u
        refine Nat.le_antisymm ?_ ?_
        · rcases List.mem_cons.mp (foldl_max_mem us u) with hh | ht
          · rw [hh]; exact hub u (List.mem_cons_self u us)
          · exact hub _ (List.mem_cons_of_mem u ht)
        · rcases List.mem_cons.mp hmem with hh | ht
          · rw [hh]; exact h1
          · exact h2 m ht
      simp [initialize_uid, hmax]
  · intro off
    rfl

/-- Witness for C3: a mailbox with UIDs 3 and 5 and offset 1 sets the
watermark to 3. -/
theorem initialize_uid_spec_app :
    initialize_uid (some [3, 5]) 1 none = some 3 :=
  initialize_uid_spec.1 [3, 5] 1 none 5 (by decide)
    (by intro x hx; fin_cases hx <;> decide)

/-- Claim C2 (amended): every identifier a successful `list_uids` call
returns is strictly greater than the watermark; the output keeps the
server response order, so it is sorted ascending with no duplicates
whenever the server response is sorted strictly ascending (the code never
sorts or deduplicates itself). -/
theorem list_uids_spec :
    ∀ (g : Int → Option (List Nat)) (w : Int) (out : List Nat),
      list_uids g (some w) = some out →
      ((∀ u ∈ out, w < (u : Int)) ∧
        ∀ resp, g (w + 1) = some resp → resp.Sorted (· < ·) →
          out.Sorted (· < ·) ∧ out.Nodup) := by
  intro g w out h
  dsimp only [list_uids] at h
  split at h
  · exact Option.noConfusion h
  · next resp0 hg =>
    injection h with h
    subst h
    constructor
    · intro u hu
      have hpu := List.of_mem_filter hu
      exact of_decide_eq_true hpu
    · intro resp hresp hsorted
      rw [hg] at hresp
      injection hresp with hre
      subst hre
      have hs := List.Pairwise.filter
        (fun (u : Nat) => decide (w < (u : Int))) hsorted
      exact ⟨hs, hs.imp (fun hlt => Nat.ne_of_lt hlt)⟩

/-- Witness for C2: watermark 4 against the sorted server response
`[3, 5, 9]` keeps only UIDs above 4, and the output `[5, 9]` is sorted
with no duplicates. -/
theorem list_uids_spec_app :
    (4 : Int) < ((5 : Nat) : Int) ∧
    ([5, 9] : List Nat).Sorted (· < ·) ∧ ([5, 9] : List Nat).Nodup :=
  ⟨(list_uids_spec (fun _ => some [3, 5, 9]) 4 [5, 9] rfl).1 5 (by decide),
   (list_uids_spec (fun _ => some [3, 5, 9]) 4 [5, 9] rfl).2 [3, 5, 9] rfl
     (by decide)⟩

/-- Counterexample for C2 as stated: the code preserves server order, so a
server response `[5, 3]` makes `list_uids` return the unsorted `[5, 3]`,
against the claim that every returned sequence is sorted ascending. -/
theorem list_uids_unsorted_counterexample :
    list_uids (fun _ => some [5, 3]) (some 2) = some [5, 3] ∧
    ¬ ([5, 3] : List Nat).Sorted (· < ·) :=
  ⟨rfl, by decide⟩

/-- Claim C6: on failure (unset watermark, or a raising server search)
`list_uids` falls off its `except` branch without a `return`, so it
evaluates to Python `None` — not the empty list its `-> list[str]`
annotation and the spec promise — though it indeed never raises. -/
theorem list_uids_failure_returns_none :
    list_uids (fun _ => none) (some 2) = none ∧
    list_uids (fun _ => some [5, 3]) none = none :=
  ⟨rfl, rfl⟩

/-- Claim C8: `extract_business_` on the three spec examples, and in
general: an input containing no `@` yields `none` (the regex cannot match
and the whole input splits into a single part). -/
theorem extract_business_spec :
    extract_business_ (String.data "invoices@billing.acme.com") =
      some (String.data "billing") ∧
    extract_business_ (String.data "no-domain-struct") = none ∧
    extract_business_ (String.data "a@b") = none ∧
    ∀ s : List Char, '@' ∉ s → extract_business_ s = none := by
  refine ⟨by decide, by decide, by decide, ?_⟩
  intro s h
  have h1 : searchEmail s = none := searchEmail_no_at s h
  have h2 : splitOnChar '@' s = [s] := splitOnChar_eq_single '@' s h
  simp [extract_business_, h1, h2]

/-- Witness for C8: `"hello"` has no `@`, so no business is extracted. -/
theorem extract_business_spec_app :
    extract_business_ (String.data "hello") = none :=
  extract_business_spec.2.2.2 (String.data "hello") (by decide)

/-- Claim C9: `should_process` is truthy exactly when the business key is
present in the criteria mapping and the regex search of its pattern against
the subject succeeds; in particular it is falsy whenever the business key
is unknown, whatever the pattern would do. -/
theorem should_process_spec :
    ∀ (rs : List Char → List Char → Bool)
      (criteria : List (List Char × List Char))
      (b : Option (List Char)) (subj : List Char),
      (should_process rs criteria b subj = true ↔
        ∃ bk pat, b = some bk ∧ criteria.lookup bk = some pat ∧
          rs pat subj = true) ∧
      (∀ bk, b = some bk → criteria.lookup bk = none →
        should_process rs criteria b subj = false) := by
  intro rs criteria b subj
  constructor
  · cases b with
    | none => simp [should_process]
    | some bk =>
      cases hl : criteria.lookup bk with
      | none => simp [should_process, hl]
      | some pat => simp [should_process, hl]
  · intro bk hb hl
    subst hb
    simp [should_process, hl]

/-- Witness for C9: an unknown business key (empty criteria) is rejected
even though the pattern search would succeed. -/
theorem should_process_spec_app :
    should_process (fun _ _ => true) [] (some (String.data "x"))
      (String.data "s") = false :=
  (should_process_spec (fun _ _ => true) [] (some (String.data "x"))
    (String.data "s")).2 (String.data "x") rfl rfl

theorem leadsWith_iff (needle : List Char) :
    ∀ hay : List Char, leadsWith needle hay = true ↔ ∃ r, hay = needle ++ r := by
  induction needle with
  | nil => intro hay; simp [leadsWith]
  | cons a as ih =>
    intro hay
    cases hay with
    | nil =>
      simp only [leadsWith, List.cons_append]
      constructor
      · intro h; exact absurd h (by simp)
      · rintro ⟨r, hr⟩; exact absurd hr (by simp)
    | cons b bs =>
      simp only [leadsWith, Bool.and_eq_true, decide_eq_true_eq, ih bs,
        List.cons_append]
      constructor
      · rintro ⟨rfl, r, rfl⟩
        exact ⟨r, rfl⟩
      · rintro ⟨r, hr⟩
        injection hr with h1 h2
        exact ⟨h1.symm, r, h2⟩

theorem containsSub_iff (needle : List Char) :
    ∀ hay : List Char,
      containsSub needle hay = true ↔ ∃ l r, hay = l ++ needle ++ r := by
  intro hay
  induction hay with
  | nil =>
    simp only [containsSub, leadsWith_iff]
    constructor
    · rintro ⟨r, hr⟩
      exact ⟨[], r, by simpa using hr⟩
    · rintro ⟨l, r, hr⟩
      refine ⟨r, ?_⟩
      have h0 : l = [] ∧ needle = [] ∧ r = [] := by
        simpa [List.append_eq_nil] using hr.symm
      simp [h0.1, h0.2.1, h0.2.2]
  | cons c cs ih =>
    simp only [containsSub, Bool.or_eq_true, leadsWith_iff, ih]
    constructor
    · rintro (⟨r, hr⟩ | ⟨l, r, hr⟩)
      · exact ⟨[], r, by simpa using hr⟩
      · exact ⟨c :: l, r, by simp [hr]⟩
    · rintro ⟨l, r, hr⟩
      cases l with
      | nil => exact Or.inl ⟨r, by simpa using hr⟩
      | cons c2 l2 =>
        rw [List.cons_append, List.cons_append] at hr
        injection hr with h1 h2
        exact Or.inr ⟨l2, r, h2⟩

/-- Claim C4 (amended): `extract_all_pdfs` selects exactly the parts whose
stringified lowercased filename contains the substring `".pdf"` — with the
leading dot, so `"pdfinvoice.txt"` is NOT selected — and returns their
payloads in part order; containment is characterized as a list
decomposition, and a mixed part list shows order and selection. -/
theorem extract_all_pdfs_spec :
    (∀ needle hay : List Char,
      containsSub needle hay = true ↔ ∃ l r, hay = l ++ needle ++ r) ∧
    (∀ p : Part, isPdfPart p = true ↔
      ∃ l r, lowerChars (pyStrOfFilename p) = l ++ String.data ".pdf" ++ r) ∧
    extract_all_pdfs
      [⟨some (String.data "Report.PDF"), [7]⟩,
       ⟨some (String.data "pdfinvoice.txt"), [1]⟩,
       ⟨none, [2]⟩,
       ⟨some (String.data "a.pdf"), [3]⟩] = [[7], [3]] := by
  refine ⟨fun needle hay => containsSub_iff needle hay, ?_, by decide⟩
  intro p
  simpa [isPdfPart] using
    containsSub_iff (String.data ".pdf") (lowerChars (pyStrOfFilename p))

/-- Witness for C4: the filename `"a.pdf"` is selected because its
lowercased form decomposes around `".pdf"`. -/
theorem extract_all_pdfs_spec_app :
    isPdfPart ⟨some (String.data "a.pdf"), [3]⟩ = true :=
  (extract_all_pdfs_spec.2.1 ⟨some (String.data "a.pdf"), [3]⟩).mpr
    ⟨String.data "a", [], by decide⟩

/-- Counterexample for C4 as stated: the code matches on `".pdf"` (with the
dot), not `"pdf"`: the filename `"pdfinvoice.txt"` contains `"pdf"` — so
the claim says it is selected — yet `extract_all_pdfs` drops it. -/
theorem extract_all_pdfs_counterexample :
    extract_all_pdfs [⟨some (String.data "pdfinvoice.txt"), [1]⟩] = [] ∧
    containsSub (String.data "pdf")
      (lowerChars (String.data "pdfinvoice.txt")) = true :=
  ⟨by decide, by decide⟩

/-- Claim C5 (amended): the subject fragments are decoded each with its own
declared charset and concatenated in order, and the spec's example decodes
to `"Rechnung #42"`; but a fragment that declares NO charset falls back
directly to UTF-8 — the comprehension variable `charset` shadows the outer
detected message charset, which is never consulted (the two definitions
agree exactly when every byte fragment declares a charset). -/
theorem subject_fragments_spec :
    (∀ (outer : Option (List Char)) (frags : List Fragment),
      frags.all declaresCharset = true →
      subjectFromFragments frags = subjectFromFragmentsSpec outer frags) ∧
    subjectFromFragments
      [Sum.inl ([82, 101, 99, 104, 110, 117], some (String.data "iso-8859-1")),
       Sum.inl ([110, 103, 32, 35, 52, 50], some (String.data "ascii"))] =
      some (String.data "Rechnung #42") := by
  constructor
  · intro outer frags h
    induction frags with
    | nil => rfl
    | cons f rest ih =>
      rw [List.all_cons, Bool.and_eq_true] at h
      obtain ⟨hf, hrest⟩ := h
      match f with
      | Sum.inl (bs, some cs) =>
        simp [subjectFromFragments, subjectFromFragmentsSpec, ih hrest]
      | Sum.inl (bs, none) =>
        exact absurd hf (by simp [declaresCharset])
      | Sum.inr s =>
        simp [subjectFromFragments, subjectFromFragmentsSpec, ih hrest]
  · decide

/-- Witness for C5: the example fragments all declare charsets, so the code
decode and the spec's fallback chain agree on them for any outer charset. -/
theorem subject_fragments_spec_app :
    subjectFromFragments
      [Sum.inl ([82, 101, 99, 104, 110, 117], some (String.data "iso-8859-1")),
       Sum.inl ([110, 103, 32, 35, 52, 50], some (String.data "ascii"))] =
    subjectFromFragmentsSpec (some (String.data "iso-8859-1"))
      [Sum.inl ([82, 101, 99, 104, 110, 117], some (String.data "iso-8859-1")),
       Sum.inl ([110, 103, 32, 35, 52, 50], some (String.data "ascii"))] :=
  subject_fragments_spec.1 (some (String.data "iso-8859-1"))
    [Sum.inl ([82, 101, 99, 104, 110, 117], some (String.data "iso-8859-1")),
     Sum.inl ([110, 103, 32, 35, 52, 50], some (String.data "ascii"))]
    (by decide)

/-- Counterexample for C5 as stated: with detected outer charset iso-8859-1
and the single fragment `(b"\xe4", None)`, the claim's fallback chain
decodes to `"ä"`, but the code decodes with UTF-8 directly and fails
(0xE4 opens an incomplete multi-byte sequence). -/
theorem subject_fragments_counterexample :
    subjectFromFragments [Sum.inl ([0xE4], none)] = none ∧
    subjectFromFragmentsSpec (some (String.data "iso-8859-1"))
      [Sum.inl ([0xE4], none)] = some [Char.ofNat 0xE4] :=
  ⟨rfl, rfl⟩

/-- Claim C7 (amended): `set_metadata_redis` wraps the whole loop in a
single `try`, so the FIRST per-identifier failure aborts the batch:
identifiers before it are written normally, the failing one and every
later one are not; when every identifier succeeds, all are written in
order. -/
theorem set_metadata_redis_spec :
    (∀ (f : List Char → Option (Option (List Char) × List Char))
      (e : List Char → Option (List Char) × List Char)
      (uids : List (List Char)),
      (∀ u ∈ uids, f u = some (e u)) →
      set_metadata_redis f uids = uids.map (fun u => (u, e u))) ∧
    (∀ (f : List Char → Option (Option (List Char) × List Char))
      (pre post : List (List Char)) (u : List Char),
      f u = none →
      set_metadata_redis f (pre ++ u :: post) = set_metadata_redis f pre) := by
  constructor
  · intro f e uids h
    induction uids with
    | nil => rfl
    | cons v vs ih =>
      have hv : f v = some (e v) := h v (List.mem_cons_self v vs)
      have ihs := ih (fun u hu => h u (List.mem_cons_of_mem v hu))
      simp [set_metadata_redis, hv, ihs]
  · intro f pre post u hu
    induction pre with
    | nil => simp [set_metadata_redis, hu]
    | cons p ps ih =>
      rcases hp : f p with _ | entry <;>
        simp [set_metadata_redis, hp, ih]

/-- Witness for C7: a batch whose only identifier succeeds is fully
written. -/
theorem set_metadata_redis_spec_app :
    set_metadata_redis (fun u => some (none, u)) [String.data "7"] =
      [(String.data "7", (none, String.data "7"))] :=
  set_metadata_redis_spec.1 (fun u => some (none, u)) (fun u => (none, u))
    [String.data "7"] (fun _u _ => rfl)

/-- Counterexample for C7 as stated: identifier `"1"` fails while `"2"`
would succeed, yet nothing at all is written — the failure aborts the
batch instead of being skipped per-identifier. -/
theorem set_metadata_redis_counterexample :
    set_metadata_redis
      (fun uid => if uid = String.data "2"
        then some (some (String.data "acme"), String.data "s") else none)
      [String.data "1", String.data "2"] = [] ∧
    (fun uid => if uid = String.data "2"
        then some (some (String.data "acme"), String.data "s") else none)
      (String.data "2") ≠ none :=
  ⟨by decide, by decide⟩

/-- Claim C1 (amended): the pipeline output is the concatenation of the
per-identifier outputs (one identifier's outcome never halts the rest);
per identifier, a successfully decoded message with N ≥ 1 pdfs yields
exactly the N records sharing the message context with the attachments in
order, and one with zero pdfs yields one record with a null attachment;
but an identifier whose decode fails entirely ALSO yields exactly one
record — with every content field null — rather than the zero records the
claim states. -/
theorem create_invoice_and_idoc_spec :
    (∀ (f : List Char → Option Parsed) (uids : List (List Char)),
      create_invoice_and_idoc f uids =
        uids.flatMap (fun u => create_invoice_and_idoc f [u])) ∧
    (∀ (f : List Char → Option Parsed) (uid : List Char) (m : Parsed)
      (subj : List Char),
      f uid = some m → subjectFromFragments m.fragments = some subj →
      m.pdfExtractOk = true →
      (extract_all_pdfs m.parts ≠ [] →
        create_invoice_and_idoc f [uid] =
          (extract_all_pdfs m.parts).map (fun pdf =>
            ⟨uid, some m.adress, some m.raw, extract_business_ m.adress,
              some subj, m.text, some pdf⟩)) ∧
      (extract_all_pdfs m.parts = [] →
        create_invoice_and_idoc f [uid] =
          [⟨uid, some m.adress, some m.raw, extract_business_ m.adress,
            some subj, m.text, none⟩])) ∧
    (∀ (f : List Char → Option Parsed) (uid : List Char),
      f uid = none →
      create_invoice_and_idoc f [uid] =
        [⟨uid, none, none, none, none, none, none⟩]) := by
  refine ⟨?_, ?_, ?_⟩
  · intro f uids
    induction uids with
    | nil => rfl
    | cons v vs ih =>
      simp only [create_invoice_and_idoc] at ih ⊢
      simp [List.flatMap_cons, ih]
  · intro f uid m subj hf hsubj hok
    constructor
    · intro hne
      rcases hp : extract_all_pdfs m.parts with _ | ⟨p, ps⟩
      · exact absurd hp hne
      · simp [create_invoice_and_idoc, configure_uid_specific_data, hf,
          hsubj, hok, hp]
    · intro hnil
      simp [create_invoice_and_idoc, configure_uid_specific_data, hf,
        hsubj, hok, hnil]
  · intro f uid hf
    simp [create_invoice_and_idoc, configure_uid_specific_data, hf]

/-- Witness for C1: a decoded message with a single pdf attachment yields
exactly one record carrying that attachment and the message context. -/
theorem create_invoice_and_idoc_spec_app :
    create_invoice_and_idoc
      (fun _ => some ⟨String.data "r", String.data "x@y.z", [],
        [⟨some (String.data "a.pdf"), [9]⟩], none, true⟩)
      [String.data "1"] =
      [⟨String.data "1", some (String.data "x@y.z"), some (String.data "r"),
        extract_business_ (String.data "x@y.z"), some [], none,
        some [9]⟩] := by
  have h := (create_invoice_and_idoc_spec.2.1
    (fun _ => some ⟨String.data "r", String.data "x@y.z", [],
      [⟨some (String.data "a.pdf"), [9]⟩], none, true⟩)
    (String.data "1")
    ⟨String.data "r", String.data "x@y.z", [],
      [⟨some (String.data "a.pdf"), [9]⟩], none, true⟩
    [] rfl rfl rfl).1 (by decide)
  simpa using h

/-- Counterexample for C1 as stated: an identifier whose decode fails
entirely still produces one record (all content fields null), not zero. -/
theorem create_invoice_and_idoc_counterexample :
    create_invoice_and_idoc (fun _ => none) [String.data "1"] =
      [⟨String.data "1", none, none, none, none, none, none⟩] ∧
    (create_invoice_and_idoc (fun _ => none) [String.data "1"]).length ≠ 0 :=
  ⟨rfl, by decide⟩

/-- Claim C10: when the message decodes but pdf extraction fails internally
(`extract_all_pdfs` returns its `None` sentinel), the pipeline still yields
exactly one record with a null attachment for that identifier — the same
output as for an otherwise identical message with genuinely zero pdf
attachments, so the two cases are indistinguishable at the interface. -/
theorem extraction_failure_indistinguishable :
    ∀ (f1 f2 : List Char → Option Parsed) (uid : List Char) (m1 m2 : Parsed),
      f1 uid = some m1 → f2 uid = some m2 →
      m1.pdfExtractOk = false → m2.pdfExtractOk = true →
      extract_all_pdfs m2.parts = [] →
      m1.raw = m2.raw → m1.adress = m2.adress →
      m1.fragments = m2.fragments → m1.text = m2.text →
      create_invoice_and_idoc f1 [uid] = create_invoice_and_idoc f2 [uid] ∧
      (∀ inv ∈ create_invoice_and_idoc f1 [uid], inv.pdf = none) ∧
      (create_invoice_and_idoc f1 [uid]).length = 1 := by
  intro f1 f2 uid m1 m2 hf1 hf2 hok1 hok2 hpdfs hraw hadr hfrag htext
  obtain ⟨r1, a1, fr1, p1, t1, ok1⟩ := m1
  obtain ⟨r2, a2, fr2, p2, t2, ok2⟩ := m2
  simp only at hok1 hok2 hraw hadr hfrag htext hpdfs
  subst hok1; subst hok2; subst hraw; subst hadr; subst hfrag; subst htext
  rcases hs : subjectFromFragments fr1 with _ | subj
  · refine ⟨?_, ?_, ?_⟩ <;>
      simp [create_invoice_and_idoc, configure_uid_specific_data, hf1, hf2, hs]
  · refine ⟨?_, ?_, ?_⟩ <;>
      simp [create_invoice_and_idoc, configure_uid_specific_data, hf1, hf2,
        hs, hpdfs]

/-- Witness for C10: a concrete extraction failure and a concrete
zero-attachment message produce the identical single null-attachment
record. -/
theorem extraction_failure_indistinguishable_app :
    create_invoice_and_idoc
      (fun _ => some ⟨String.data "r", String.data "x@y.z", [], [], none,
        false⟩) [String.data "1"] =
    create_invoice_and_idoc
      (fun _ => some ⟨String.data "r", String.data "x@y.z", [], [], none,
        true⟩) [String.data "1"] :=
  (extraction_failure_indistinguishable
    (fun _ => some ⟨String.data "r", String.data "x@y.z", [], [], none,
      false⟩)
    (fun _ => some ⟨String.data "r", String.data "x@y.z", [], [], none,
      true⟩)
    (String.data "1")
    ⟨String.data "r", String.data "x@y.z", [], [], none, false⟩
    ⟨String.data "r", String.data "x@y.z", [], [], none, true⟩
    rfl rfl rfl rfl rfl rfl rfl rfl rfl).1

end LibMail
